import Mathlib

/-!
# Verification of the UART visualizer core (`gui_interface.py`)

Shallow embedding of the core of the repository's single source file:

* the frame decoder loop of `UARTReader._run_uart`,
* the synthetic generator tick of `UARTReader._run_dummy`,
* the rolling history buffer updated by `App.on_new_data`,
* the layout-configuration processing of `App.setup_plots`
  (subplot defaulting, subplot-index clamping, channel binding),
* the render tick `App.update_plot` and the shutdown path
  `App.on_close` / `App.load_config`.

Bytes are modelled as natural numbers; IEEE-754 single-precision floats
produced by `struct.unpack('<16f', ...)` are modelled by their 32-bit
little-endian bit patterns (a `Nat`), since the properties of interest
are stated bit-for-bit and the bit pattern determines the float and
conversely.  Channel values handled by the buffer and renderer are
modelled as rationals (real-arithmetic idealization of Python floats).
-/

set_option autoImplicit false

namespace GuiInterface

/-- Frame size constant `FRAME_SIZE = 16 * 4 + 2` (line 20 of the source). -/
def FRAME_SIZE : Nat := 16 * 4 + 2

/-- Terminator marker (line 21 of the source): the bytes `0xAA 0xBB`. -/
def TERMINATOR : List Nat := [0xAA, 0xBB]

/-- Python's `frame[-2:]`: the last two bytes of the candidate frame. -/
def lastTwo (l : List Nat) : List Nat := l.drop (l.length - 2)

/-- The 32-bit word formed from four consecutive bytes, little-endian;
this is the bit pattern `struct.unpack('<f', ...)` decodes. -/
def le32 (bs : List Nat) (i : Nat) : Nat :=
  bs.getD (4 * i) 0 + 256 * bs.getD (4 * i + 1) 0 +
    65536 * bs.getD (4 * i + 2) 0 + 16777216 * bs.getD (4 * i + 3) 0

/-- Unpacking of the 64 payload bytes as 16 little-endian single-precision
floats (`struct.unpack` with format `<16f`): the 16 little-endian 32-bit
bit patterns of the 64 payload bytes (line 54 of the source). -/
def unpack16f (bs : List Nat) : List Nat :=
  (List.range 16).map (fun i => le32 bs i)

/-- The inner loop of `UARTReader._run_uart` (lines 51–55): while at least
`FRAME_SIZE` bytes are buffered, split off the first `FRAME_SIZE` bytes as a
candidate frame; if its last two bytes equal the terminator, unpack its first
64 bytes and emit them to the callback.  Returns the emitted sample sets in
order, together with the unconsumed remainder of the buffer. -/
def processBuffer (buffer : List Nat) : List (List Nat) × List Nat :=
  if h : FRAME_SIZE ≤ buffer.length then
    let frame := buffer.take FRAME_SIZE
    let rest := buffer.drop FRAME_SIZE
    let pr := processBuffer rest
    if lastTwo frame = TERMINATOR then
      (unpack16f (frame.take 64) :: pr.1, pr.2)
    else
      pr
  else
    ([], buffer)
termination_by buffer.length
decreasing_by
  have h66 : FRAME_SIZE = 66 := rfl
  simp only [List.length_drop]
  omega

theorem processBuffer_step (buffer : List Nat) (h : FRAME_SIZE ≤ buffer.length) :
    processBuffer buffer =
      if lastTwo (buffer.take FRAME_SIZE) = TERMINATOR then
        (unpack16f ((buffer.take FRAME_SIZE).take 64) ::
            (processBuffer (buffer.drop FRAME_SIZE)).1,
          (processBuffer (buffer.drop FRAME_SIZE)).2)
      else processBuffer (buffer.drop FRAME_SIZE) := by
  rw [processBuffer.eq_def]
  simp [h]

theorem processBuffer_small (buffer : List Nat) (h : ¬ FRAME_SIZE ≤ buffer.length) :
    processBuffer buffer = ([], buffer) := by
  rw [processBuffer.eq_def]
  simp [h]

theorem lastTwo_of_length66 (bs : List Nat) (hlen : bs.length = 66) :
    lastTwo bs = bs.drop 64 := by
  simp [lastTwo, hlen]

theorem take_frame_append (bs rest : List Nat) (hlen : bs.length = 66) :
    (bs ++ rest).take FRAME_SIZE = bs := by
  have : FRAME_SIZE = 66 := rfl
  rw [this, ← hlen, List.take_left]

theorem drop_frame_append (bs rest : List Nat) (hlen : bs.length = 66) :
    (bs ++ rest).drop FRAME_SIZE = rest := by
  have : FRAME_SIZE = 66 := rfl
  rw [this, ← hlen, List.drop_left]

theorem getD_take64 (bs : List Nat) (j : Nat) (hj : j < 64) :
    (bs.take 64).getD j 0 = bs.getD j 0 := by
  simp [List.getD_eq_getElem?_getD, List.getElem?_take, hj]

/-- C1: a 66-byte candidate whose trailing 2 bytes are the terminator is
entirely consumed and yields exactly the 16 little-endian 32-bit patterns
of its first 64 bytes. -/
theorem valid_frame_decoded (bs rest : List Nat)
    (hlen : bs.length = 66) (hterm : bs.drop 64 = TERMINATOR) :
    processBuffer (bs ++ rest) =
        (unpack16f (bs.take 64) :: (processBuffer rest).1, (processBuffer rest).2)
      ∧ (unpack16f (bs.take 64)).length = 16
      ∧ (∀ i, i < 16 →
          (unpack16f (bs.take 64)).getD i 0 =
            bs.getD (4 * i) 0 + 256 * bs.getD (4 * i + 1) 0 +
              65536 * bs.getD (4 * i + 2) 0 + 16777216 * bs.getD (4 * i + 3) 0) := by
  have hfs : FRAME_SIZE ≤ (bs ++ rest).length := by
    have : FRAME_SIZE = 66 := rfl
    simp [this, hlen]
  refine ⟨?_, ?_, ?_⟩
  · rw [processBuffer_step _ hfs, take_frame_append bs rest hlen,
      drop_frame_append bs rest hlen, lastTwo_of_length66 bs hlen, if_pos hterm]
  · simp [unpack16f]
  · intro i hi
    have h0 : 4 * i < 64 := by omega
    have h1 : 4 * i + 1 < 64 := by omega
    have h2 : 4 * i + 2 < 64 := by omega
    have h3 : 4 * i + 3 < 64 := by omega
    have hmem : (unpack16f (bs.take 64)).getD i 0 = le32 (bs.take 64) i := by
      simp [unpack16f, List.getD_eq_getElem?_getD, List.getElem?_map,
        List.getElem?_range, hi]
    rw [hmem, le32, getD_take64 bs _ h0, getD_take64 bs _ h1,
      getD_take64 bs _ h2, getD_take64 bs _ h3]

/-- Concrete instantiation of `valid_frame_decoded`: payload bytes 0..63
followed by the terminator `0xAA 0xBB`, with an empty stream remainder. -/
theorem valid_frame_decoded_witness :
    processBuffer ((List.range 64 ++ [0xAA, 0xBB]) ++ []) =
        (unpack16f ((List.range 64 ++ [0xAA, 0xBB]).take 64) ::
            (processBuffer []).1, (processBuffer []).2)
      ∧ (unpack16f ((List.range 64 ++ [0xAA, 0xBB]).take 64)).length = 16
      ∧ (∀ i, i < 16 →
          (unpack16f ((List.range 64 ++ [0xAA, 0xBB]).take 64)).getD i 0 =
            (List.range 64 ++ [0xAA, 0xBB]).getD (4 * i) 0 +
              256 * (List.range 64 ++ [0xAA, 0xBB]).getD (4 * i + 1) 0 +
              65536 * (List.range 64 ++ [0xAA, 0xBB]).getD (4 * i + 2) 0 +
              16777216 * (List.range 64 ++ [0xAA, 0xBB]).getD (4 * i + 3) 0) :=
  valid_frame_decoded (List.range 64 ++ [0xAA, 0xBB]) [] (by decide) (by decide)

/-- C2: a 66-byte candidate whose trailing 2 bytes are NOT the terminator is
still entirely consumed (the decoder advances by one frame size) and emits
nothing for it. -/
theorem invalid_frame_dropped (bs rest : List Nat)
    (hlen : bs.length = 66) (hterm : bs.drop 64 ≠ TERMINATOR) :
    processBuffer (bs ++ rest) = processBuffer rest := by
  have hfs : FRAME_SIZE ≤ (bs ++ rest).length := by
    have : FRAME_SIZE = 66 := rfl
    simp [this, hlen]
  rw [processBuffer_step _ hfs, take_frame_append bs rest hlen,
    drop_frame_append bs rest hlen, lastTwo_of_length66 bs hlen, if_neg hterm]

/-- Concrete instantiation of `invalid_frame_dropped`: 66 zero bytes (whose
tail is not the terminator) are consumed, emitting nothing. -/
theorem invalid_frame_dropped_witness :
    processBuffer (List.replicate 66 0 ++ []) = processBuffer [] :=
  invalid_frame_dropped (List.replicate 66 0) [] (by decide) (by decide)

/-! ## Rolling buffer (`App.on_new_data`, lines 119–121 and 212–214)

`self.data = np.zeros((16, self.history_length))` with
`self.history_length = 200`; each callback does
`self.data = np.roll(self.data, -1, axis=1); self.data[:, -1] = floats`,
i.e. every row is shifted left by one and the new channel value is written
into the freed last slot. -/

/-- History depth `self.history_length = 200` (line 120). -/
def historyLength : Nat := 200

/-- One row update: shift left by one and append the new value
(`np.roll(row, -1)` followed by overwriting the last entry). -/
def pushRow (row : List ℚ) (x : ℚ) : List ℚ := row.drop 1 ++ [x]

/-- Callback `App.on_new_data`: apply `pushRow` to every channel row with the
corresponding entry of the incoming sample set. -/
def on_new_data (data : List (List ℚ)) (floats : List ℚ) : List (List ℚ) :=
  List.zipWith pushRow data floats

/-- Initial buffer `np.zeros((16, n))`: 16 channel rows of `n` zeros. -/
def initData (n : Nat) : List (List ℚ) :=
  List.replicate 16 (List.replicate n 0)

/-- Push a whole sequence of sample sets in order. -/
def pushAll (data : List (List ℚ)) (samples : List (List ℚ)) : List (List ℚ) :=
  samples.foldl on_new_data data

theorem foldl_pushRow (xs : List ℚ) (row : List ℚ) (h : 1 ≤ row.length) :
    List.foldl pushRow row xs = (row ++ xs).drop xs.length := by
  induction xs generalizing row with
  | nil => simp
  | cons x xs ih =>
    obtain ⟨r, t, rfl⟩ : ∃ r t, row = r :: t := by
      cases row with
      | nil => simp at h
      | cons r t => exact ⟨r, t, rfl⟩
    show List.foldl pushRow (pushRow (r :: t) x) xs = _
    rw [ih (pushRow (r :: t) x) (by simp [pushRow])]
    simp [pushRow, List.append_assoc]

theorem on_new_data_getD (data : List (List ℚ)) (s : List ℚ) (c : Nat)
    (hc : c < data.length) (hc2 : c < s.length) :
    (on_new_data data s).getD c [] = pushRow (data.getD c []) (s.getD c 0) := by
  have hlen : c < (List.zipWith pushRow data s).length := by
    simp only [List.length_zipWith]
    omega
  rw [on_new_data, List.getD_eq_getElem _ _ hlen, List.getElem_zipWith,
    List.getD_eq_getElem _ _ hc, List.getD_eq_getElem _ _ hc2]

theorem pushAll_getD (samples : List (List ℚ)) (data : List (List ℚ)) (c : Nat)
    (hdata : data.length = 16) (h16 : ∀ s ∈ samples, s.length = 16) (hc : c < 16) :
    (pushAll data samples).getD c [] =
      List.foldl pushRow (data.getD c []) (samples.map (fun s => s.getD c 0)) := by
  induction samples generalizing data with
  | nil => rfl
  | cons s ss ih =>
    have hs : s.length = 16 := h16 s (by simp)
    have hlen : (on_new_data data s).length = 16 := by
      simp [on_new_data, hdata, hs]
    show (pushAll (on_new_data data s) ss).getD c [] = _
    rw [ih (on_new_data data s) hlen (fun t ht => h16 t (by simp [ht]))]
    rw [on_new_data_getD data s c (by omega) (by omega)]
    rfl

theorem on_new_data_row_length (data : List (List ℚ)) (s : List ℚ) (N : Nat)
    (h : ∀ row ∈ data, row.length = N) (hN : 1 ≤ N) :
    ∀ row ∈ on_new_data data s, row.length = N := by
  induction data generalizing s with
  | nil => simp [on_new_data]
  | cons r rs ih =>
    cases s with
    | nil => simp [on_new_data]
    | cons x xs =>
      intro row hrow
      rw [show on_new_data (r :: rs) (x :: xs) =
          pushRow r x :: on_new_data rs xs from rfl, List.mem_cons] at hrow
      rcases hrow with hrow | hrow
      · subst hrow
        have hr : r.length = N := h r (by simp)
        simp [pushRow]
        omega
      · exact ih xs (fun row hr => h row (List.mem_cons_of_mem r hr)) row hrow

theorem pushAll_row_length (samples data : List (List ℚ)) (N : Nat)
    (h : ∀ row ∈ data, row.length = N) (hN : 1 ≤ N) :
    ∀ row ∈ pushAll data samples, row.length = N := by
  induction samples generalizing data with
  | nil => exact h
  | cons s ss ih =>
    exact ih (on_new_data data s) (on_new_data_row_length data s N h hN)

/-- C3: starting from the all-zeros buffer of depth `N`, pushing `M ≥ N`
sample sets leaves each channel row holding exactly the last `N` values,
in order; every intermediate buffer has rows of length exactly `N`; and
the initial buffer is all zeros. -/
theorem rolling_buffer_fifo (N : Nat) (hN : 1 ≤ N)
    (samples : List (List ℚ)) (h16 : ∀ s ∈ samples, s.length = 16)
    (hM : N ≤ samples.length) (c : Nat) (hc : c < 16) :
    (pushAll (initData N) samples).getD c [] =
        (samples.drop (samples.length - N)).map (fun s => s.getD c 0)
      ∧ (∀ k, ∀ row ∈ pushAll (initData N) (samples.take k), row.length = N)
      ∧ (∀ row ∈ initData N, ∀ x ∈ row, x = 0) := by
  refine ⟨?_, ?_, ?_⟩
  · rw [pushAll_getD samples (initData N) c (by simp [initData]) h16 hc]
    have hinit : (initData N).getD c [] = List.replicate N (0 : ℚ) := by
      rw [initData]
      simp only [List.getD_eq_getElem?_getD, List.getElem?_replicate]
      rw [if_pos hc]
      rfl
    rw [hinit, foldl_pushRow _ _ (by simp; omega)]
    have hmlen : (samples.map (fun s => s.getD c 0)).length = samples.length := by
      simp
    rw [hmlen]
    have hsplit :
        (List.replicate N (0 : ℚ) ++ samples.map (fun s => s.getD c 0)).drop
            samples.length =
          (samples.map (fun s => s.getD c 0)).drop (samples.length - N) := by
      calc (List.replicate N (0 : ℚ) ++ samples.map (fun s => s.getD c 0)).drop
              samples.length
          = ((List.replicate N (0 : ℚ) ++
                samples.map (fun s => s.getD c 0)).drop N).drop
              (samples.length - N) := by
            rw [List.drop_drop]
            congr 1
            omega
        _ = (samples.map (fun s => s.getD c 0)).drop (samples.length - N) := by
            rw [List.drop_left']
            simp
    rw [hsplit, List.map_drop]
  · intro k row hrow
    refine pushAll_row_length (samples.take k) (initData N) N ?_ hN row hrow
    intro row hrow2
    rw [initData] at hrow2
    rw [List.eq_of_mem_replicate hrow2]
    simp
  · intro row hrow x hx
    rw [initData] at hrow
    rw [List.eq_of_mem_replicate hrow] at hx
    exact List.eq_of_mem_replicate hx

/-- Concrete instantiation of `rolling_buffer_fifo` with depth 1 and one
pushed sample set whose entries are all 3. -/
theorem rolling_buffer_fifo_witness :
    (pushAll (initData 1) [List.replicate 16 (3 : ℚ)]).getD 0 [] =
        ([List.replicate 16 (3 : ℚ)].drop
            ([List.replicate 16 (3 : ℚ)].length - 1)).map (fun s => s.getD 0 0)
      ∧ (∀ k, ∀ row ∈ pushAll (initData 1) ([List.replicate 16 (3 : ℚ)].take k),
          row.length = 1)
      ∧ (∀ row ∈ initData 1, ∀ x ∈ row, x = 0) :=
  rolling_buffer_fifo 1 (by decide) [List.replicate 16 (3 : ℚ)]
    (by
      intro s hs
      rw [List.mem_singleton] at hs
      subst hs
      simp)
    (by simp) 0 (by decide)

/-! ## Layout configuration (`App.setup_plots`, lines 140–177)

A parsed JSON document is modelled by `ConfigDoc`: each `.get(key, default)`
lookup in the source corresponds to an `Option.getD`.  Python dicts preserve
insertion order, so the `channels` mapping is an ordered association list. -/

/-- One entry of the `"subplots"` array; both fields may be absent. -/
structure SubplotCfg where
  title : Option String
  y_label : Option String
deriving DecidableEq

/-- One entry of the `"channels"` mapping; all fields may be absent. -/
structure ChannelCfg where
  name : Option String
  unit : Option String
  scale : Option ℚ
  subplot : Option Int
deriving DecidableEq

/-- A parsed configuration document (`self.config_data`). -/
structure ConfigDoc where
  subplots : Option (List SubplotCfg)
  channels : Option (List (String × ChannelCfg))
deriving DecidableEq

/-- Subplot count `n_subplots = len(subplots_cfg) or 1` (line 152): Python `or` yields 1
exactly when the length is falsy, i.e. zero. -/
def nSubplots (subplotsCfg : List SubplotCfg) : Nat :=
  if subplotsCfg.length = 0 then 1 else subplotsCfg.length

/-- Lines 164–169: `subplot_idx = ch.get("subplot", 0)`, then clamp
negatives to 0, then clamp overruns to the last valid index. -/
def clampSubplot (idx : Int) (nsub : Nat) : Int :=
  let i1 := if idx < 0 then 0 else idx
  if (nsub : Int) ≤ i1 then (nsub : Int) - 1 else i1

/-- A rendered subplot: resolved title and y-axis label. -/
structure SubplotSpec where
  title : String
  y_label : String
deriving DecidableEq

/-- One element of `self.lines`: the legend label, the channel's raw config
(kept for the scale lookup at render time), the channel index `ch_idx`, and
the clamped subplot index. -/
structure PlotLine where
  label : String
  cfg : ChannelCfg
  ch_idx : Nat
  subplot_idx : Int
deriving DecidableEq

/-- Empty dict substituted when a subplot entry is missing
(line 154). -/
def defaultSubplotCfg : SubplotCfg := ⟨none, none⟩

/-- An all-absent channel config (`{}`). -/
def dummyChannel : ChannelCfg := ⟨none, none, none, none⟩

/-- Default `PlotLine` used for total indexing in statements. -/
def dummyLine : PlotLine := ⟨"", dummyChannel, 0, 0⟩

/-- Lines 153–157: resolve subplot `i`'s title (default `"Plot {i+1}"`) and
y-label (default `""`). -/
def mkSubplot (subplotsCfg : List SubplotCfg) (i : Nat) : SubplotSpec :=
  let sc := subplotsCfg.getD i defaultSubplotCfg
  ⟨sc.title.getD ("Plot " ++ toString (i + 1)), sc.y_label.getD ""⟩

/-- Lines 162–173: build the line record for the `idx`-th declared channel
`key`: legend label `"{name} [{unit}]"` with name defaulting to the key and
unit to `""`, and the clamped subplot index. -/
def mkLine (nsub : Nat) (idx : Nat) (key : String) (ch : ChannelCfg) : PlotLine :=
  ⟨ch.name.getD key ++ " [" ++ ch.unit.getD "" ++ "]", ch, idx,
    clampSubplot (ch.subplot.getD 0) nsub⟩

/-- Layout build: the body of `App.setup_plots` after its guard (lines
144–177): missing `subplots`/`channels` sections default to empty; at least
one subplot is synthesized; the `idx`-th declared channel key is bound to
channel index `idx`.  The falsy-document early return of lines 141–142 is
modelled separately by `setup_plots_app`. -/
def setup_plots (doc : ConfigDoc) : List SubplotSpec × List PlotLine :=
  let subplotsCfg := doc.subplots.getD []
  let channelsCfg := doc.channels.getD []
  let nsub := nSubplots subplotsCfg
  ((List.range nsub).map (fun i => mkSubplot subplotsCfg i),
    channelsCfg.enum.map (fun p => mkLine nsub p.1 p.2.1 p.2.2))

/-- Scale lookup `cfg.get("scale", 1.0)` (line 224). -/
def scaleOf (ch : ChannelCfg) : ℚ := ch.scale.getD 1

/-- Scaled row `scaled = self.data[ch_idx] * cfg.get("scale", 1.0)` (line 224): the
y-data handed to the rendering collaborator for one line. -/
def renderLine (data : List (List ℚ)) (l : PlotLine) : List ℚ :=
  (data.getD l.ch_idx []).map (fun y => y * scaleOf l.cfg)

/-- Render tick `App.update_plot` (lines 216-239) as a pure function: returns the list of
y-data sequences handed to the rendering collaborator (one per line, in
order) and whether a next tick was scheduled via `after`.  The `_closing`
flag is checked first and short-circuits everything; otherwise rendering
happens only when a config is loaded and lines exist, and the next tick is
always scheduled. -/
def update_plot (closing : Bool) (doc : Option ConfigDoc)
    (lines : List PlotLine) (data : List (List ℚ)) : List (List ℚ) × Bool :=
  if closing then ([], false)
  else
    (if doc.isSome && !lines.isEmpty then lines.map (fun l => renderLine data l)
     else [],
      true)

/-- The shutdown-relevant part of the application state. -/
structure AppState where
  closing : Bool
  after_id : Option Nat
deriving DecidableEq

/-- Shutdown `App.on_close` (lines 241-249): set the closing flag and cancel the
pending `after` callback. -/
def on_close (st : AppState) : AppState :=
  { st with closing := true, after_id := none }

/-- Config load `App.load_config` (lines 132-138): `json.load` either fails - the raised
parse error propagates and neither `self.config_data` nor the layout built
by `setup_plots` is touched — or succeeds, in which case the new document
fully replaces the old state.  The parse outcome of the external `json`
library is the `Except` argument. -/
def load_config (st : Option ConfigDoc × List SubplotSpec × List PlotLine)
    (parsed : Except String ConfigDoc) :
    (Option ConfigDoc × List SubplotSpec × List PlotLine) × Option String :=
  match parsed with
  | Except.error e => (st, some e)
  | Except.ok doc => ((some doc, (setup_plots doc).1, (setup_plots doc).2), none)

/-- The synthetic generator (`UARTReader._run_dummy`, lines 57–61) calls
`random.uniform(0, 10)`, which computes `a + (b - a) * random()` with
`random()` drawn from `[0, 1)`; modelled over `ℚ` with the underlying
`random()` draws passed in as a stream. -/
def random_uniform (a b r : ℚ) : ℚ := a + (b - a) * r

/-- One callback invocation of `_run_dummy`:
`[random.uniform(0, 10) for _ in range(16)]` (line 59). -/
def run_dummy_tick (r : Nat → ℚ) : List ℚ :=
  (List.range 16).map (fun i => random_uniform 0 10 (r i))

/-- Truthiness of the parsed document: Python evaluates
`not self.config_data` (line 141) as true exactly when `config_data` is
`None` or the parsed dict is empty.  A dict is non-empty iff it has a
`subplots` key, a `channels` key, or any other key; `has_other_keys`
records the last case, which `ConfigDoc` itself abstracts away. -/
def dictNonempty (doc : ConfigDoc) (has_other_keys : Bool) : Bool :=
  doc.subplots.isSome || doc.channels.isSome || has_other_keys

/-- Full `App.setup_plots` (lines 140–177) including the guard
`if not self.config_data: return` (lines 141–142): when `config_data` is
`None` or the parsed dict is falsy (empty), the method returns at once and
the prior layout (`self.subplots`, `self.lines`) is left untouched;
otherwise the body builds the replacement layout. -/
def setup_plots_app (prior : List SubplotSpec × List PlotLine)
    (config_data : Option ConfigDoc) (has_other_keys : Bool) :
    List SubplotSpec × List PlotLine :=
  match config_data with
  | none => prior
  | some doc =>
      if dictNonempty doc has_other_keys then setup_plots doc else prior

/-- The scenario document of the spec:
`{"subplots":[{"title":"A"}],"channels":{"ch0":{"scale":2.0,"subplot":0}}}`. -/
def demoChannel : ChannelCfg := ⟨none, none, some 2, some 0⟩

def demoDoc : ConfigDoc := ⟨some [⟨some "A", none⟩], some [("ch0", demoChannel)]⟩

/-- Buffer state after channel 0 has received the value 3 repeatedly:
row 0 is all 3, the other 15 rows untouched (zero). -/
def demoData : List (List ℚ) :=
  List.replicate historyLength (3 : ℚ) :: List.replicate 15 (List.replicate historyLength 0)

/-- A document declaring 17 channel keys. -/
def bigDoc : ConfigDoc := ⟨none, some (List.replicate 17 ("ch", dummyChannel))⟩

theorem nSubplots_pos (l : List SubplotCfg) : 1 ≤ nSubplots l := by
  rw [nSubplots]
  split <;> omega

theorem clampSubplot_bounds (idx : Int) (nsub : Nat) (h : 1 ≤ nsub) :
    0 ≤ clampSubplot idx nsub ∧ clampSubplot idx nsub < (nsub : Int) := by
  simp only [clampSubplot]
  split <;> split <;> omega

theorem setup_plots_snd (doc : ConfigDoc) :
    (setup_plots doc).2 =
      (doc.channels.getD []).enum.map
        (fun p => mkLine (nSubplots (doc.subplots.getD [])) p.1 p.2.1 p.2.2) := rfl

theorem setup_plots_lines_length (doc : ConfigDoc) :
    (setup_plots doc).2.length = (doc.channels.getD []).length := by
  rw [setup_plots_snd]
  simp

theorem setup_plots_lines_getElem (doc : ConfigDoc) (n : Nat)
    (h1 : n < (setup_plots doc).2.length) (h2 : n < (doc.channels.getD []).length) :
    (setup_plots doc).2.get ⟨n, h1⟩ =
      mkLine (nSubplots (doc.subplots.getD [])) n
        ((doc.channels.getD []).get ⟨n, h2⟩).1
        ((doc.channels.getD []).get ⟨n, h2⟩).2 := by
  have h1m : n < ((doc.channels.getD []).enum.map
      (fun p => mkLine (nSubplots (doc.subplots.getD [])) p.1 p.2.1 p.2.2)).length := by
    simpa using h2
  rw [List.get_eq_getElem]
  simp only [setup_plots_snd]
  rw [List.getElem_map, List.getElem_enum]
  rfl

/-- C4: every declared channel's subplot index is clamped into
`[0, subplot_count - 1]`; index 99 against 2 subplots resolves to 1;
index -5 resolves to 0; an empty subplots list yields 1 subplot. -/
theorem subplot_index_clamped :
    (∀ (doc : ConfigDoc), ∀ l ∈ (setup_plots doc).2,
        0 ≤ l.subplot_idx
          ∧ l.subplot_idx < (nSubplots (doc.subplots.getD []) : Int))
    ∧ clampSubplot 99 (nSubplots [defaultSubplotCfg, defaultSubplotCfg]) = 1
    ∧ (∀ sc : List SubplotCfg, clampSubplot (-5) (nSubplots sc) = 0)
    ∧ nSubplots [] = 1 := by
  refine ⟨?_, by decide, ?_, rfl⟩
  · intro doc l hl
    rw [setup_plots_snd] at hl
    obtain ⟨p, hp, rfl⟩ := List.mem_map.mp hl
    exact clampSubplot_bounds _ _ (nSubplots_pos _)
  · intro sc
    have h := nSubplots_pos sc
    simp only [clampSubplot]
    norm_num
    omega

/-- Concrete instantiation of `subplot_index_clamped` on the scenario
document's single channel line. -/
theorem subplot_index_clamped_witness :
    (0 ≤ (mkLine 1 0 "ch0" demoChannel).subplot_idx
      ∧ (mkLine 1 0 "ch0" demoChannel).subplot_idx <
          (nSubplots (demoDoc.subplots.getD []) : Int))
    ∧ clampSubplot (-5) (nSubplots []) = 0 :=
  ⟨subplot_index_clamped.1 demoDoc (mkLine 1 0 "ch0" demoChannel) (by decide),
    subplot_index_clamped.2.2.1 []⟩

/-- C5: the `n`-th declared channel key (zero-based, insertion order) binds
to channel index `n`; a render tick hands the rendering collaborator, per
line, the buffered row multiplied elementwise by the configured scale; in
the spec's scenario (scale 2, every buffered sample of channel 0 equal to
3), the rendered row is all 6. -/
theorem channel_binding_and_scaling :
    (∀ (doc : ConfigDoc) (n : Nat) (h1 : n < (setup_plots doc).2.length)
        (h2 : n < (doc.channels.getD []).length),
        ((setup_plots doc).2.get ⟨n, h1⟩).ch_idx = n
          ∧ ((setup_plots doc).2.get ⟨n, h1⟩).cfg =
              ((doc.channels.getD []).get ⟨n, h2⟩).2)
    ∧ (∀ (doc : ConfigDoc) (lines : List PlotLine) (data : List (List ℚ)),
        lines ≠ [] →
        update_plot false (some doc) lines data =
          (lines.map (fun l =>
              (data.getD l.ch_idx []).map (fun y => y * scaleOf l.cfg)),
            true))
    ∧ update_plot false (some demoDoc) (setup_plots demoDoc).2 demoData =
        ([List.replicate historyLength 6], true) := by
  refine ⟨?_, ?_, ?_⟩
  · intro doc n h1 h2
    rw [setup_plots_lines_getElem doc n h1 h2]
    exact ⟨rfl, rfl⟩
  · intro doc lines data hne
    cases lines with
    | nil => exact absurd rfl hne
    | cons a as => rfl
  · have hlines : (setup_plots demoDoc).2 = [mkLine 1 0 "ch0" demoChannel] := rfl
    rw [hlines]
    show ([renderLine demoData (mkLine 1 0 "ch0" demoChannel)], true) = _
    have hrow : renderLine demoData (mkLine 1 0 "ch0" demoChannel) =
        (List.replicate historyLength (3 : ℚ)).map (fun y => y * 2) := rfl
    rw [hrow, List.map_replicate]
    norm_num

/-- Concrete instantiation of `channel_binding_and_scaling` on the scenario
document: its single line is bound to channel index 0 and carries the
declared channel config. -/
theorem channel_binding_and_scaling_witness :
    ((setup_plots demoDoc).2.get ⟨0, by decide⟩).ch_idx = 0
      ∧ ((setup_plots demoDoc).2.get ⟨0, by decide⟩).cfg =
          ((demoDoc.channels.getD []).get ⟨0, by decide⟩).2 :=
  channel_binding_and_scaling.1 demoDoc 0 (by decide) (by decide)

/-- C6: one tick of the synthetic source produces exactly 16 values, each
in `[0, 10)`, whenever the underlying `random()` draws lie in `[0, 1)`. -/
theorem dummy_tick_sixteen_values_in_range (r : Nat → ℚ)
    (hr : ∀ i, 0 ≤ r i ∧ r i < 1) :
    (run_dummy_tick r).length = 16
      ∧ ∀ x ∈ run_dummy_tick r, 0 ≤ x ∧ x < 10 := by
  constructor
  · rw [run_dummy_tick]
    simp
  · intro x hx
    rw [run_dummy_tick] at hx
    obtain ⟨i, _, rfl⟩ := List.mem_map.mp hx
    obtain ⟨h0, h1⟩ := hr i
    rw [random_uniform]
    constructor <;> nlinarith

/-- Concrete instantiation of `dummy_tick_sixteen_values_in_range` with
every `random()` draw equal to 1/2. -/
theorem dummy_tick_sixteen_values_in_range_witness :
    (run_dummy_tick (fun _ => 1 / 2)).length = 16
      ∧ ∀ x ∈ run_dummy_tick (fun _ => 1 / 2), 0 ≤ x ∧ x < 10 :=
  dummy_tick_sixteen_values_in_range (fun _ => 1 / 2)
    (fun _ => by norm_num)

/-- C7: once `on_close` has run, the closing flag is set, the pending
`after` callback is cancelled, and a tick that still fires performs no
rendering call and schedules no further tick. -/
theorem no_render_after_close :
    ∀ (st : AppState) (doc : Option ConfigDoc) (lines : List PlotLine)
      (data : List (List ℚ)),
      (on_close st).closing = true
        ∧ (on_close st).after_id = none
        ∧ update_plot (on_close st).closing doc lines data = ([], false) :=
  fun _ _ _ _ => ⟨rfl, rfl, rfl⟩

/-- C8: when the external JSON parse fails, `load_config` leaves the whole
prior state (config document and built layout) unchanged and surfaces the
parse error. -/
theorem config_error_preserves_state :
    ∀ (st : Option ConfigDoc × List SubplotSpec × List PlotLine) (e : String),
      load_config st (Except.error e) = (st, some e) :=
  fun _ _ => rfl

/-- C9: the loader accepts any number of channel keys (one line per key);
with at most 16 keys every render-tick buffer row access is in bounds for
the 16-row buffer; with more than 16 keys the 17th line reads row index
16, which is out of range. -/
theorem buffer_access_bounds :
    (∀ doc : ConfigDoc,
        (setup_plots doc).2.length = (doc.channels.getD []).length)
    ∧ (∀ doc : ConfigDoc, (doc.channels.getD []).length ≤ 16 →
        ∀ l ∈ (setup_plots doc).2, l.ch_idx < (initData historyLength).length)
    ∧ (∀ doc : ConfigDoc, 16 < (doc.channels.getD []).length →
        ∃ l ∈ (setup_plots doc).2, (initData historyLength).length ≤ l.ch_idx) := by
  have hrows : (initData historyLength).length = 16 := by
    rw [initData]
    simp
  refine ⟨setup_plots_lines_length, ?_, ?_⟩
  · intro doc hle l hl
    obtain ⟨⟨i, hi⟩, rfl⟩ := List.mem_iff_get.mp hl
    have hi2 : i < (doc.channels.getD []).length := by
      rwa [setup_plots_lines_length] at hi
    rw [setup_plots_lines_getElem doc i hi hi2, hrows]
    show i < 16
    omega
  · intro doc hgt
    have hi : 16 < (setup_plots doc).2.length := by
      rw [setup_plots_lines_length]
      exact hgt
    refine ⟨(setup_plots doc).2.get ⟨16, hi⟩, List.get_mem _ _ _, ?_⟩
    rw [setup_plots_lines_getElem doc 16 hi hgt, hrows]
    show 16 ≤ 16
    omega

/-- Concrete instantiation of `buffer_access_bounds`: the scenario document
(1 channel) only reads in-bounds rows; a 17-channel document has a line
whose row index reaches past the 16-row buffer. -/
theorem buffer_access_bounds_witness :
    (∀ l ∈ (setup_plots demoDoc).2, l.ch_idx < (initData historyLength).length)
    ∧ (∃ l ∈ (setup_plots bigDoc).2, (initData historyLength).length ≤ l.ch_idx) :=
  ⟨buffer_access_bounds.2.1 demoDoc (by decide),
    buffer_access_bounds.2.2 bigDoc (by decide)⟩

/-- C10 refuted at the empty document: `{}` parses as a structured object,
but it is falsy, so `setup_plots` returns at line 142 without synthesizing
the default subplot — the prior layout (here the startup state with no
subplots and no lines) is kept, not replaced by the defaulted layout the
claim demands for every parseable document. -/
theorem config_defaults_counterexample :
    setup_plots_app ([], []) (some ⟨none, none⟩) false = ([], [])
      ∧ setup_plots_app ([], []) (some ⟨none, none⟩) false ≠
          ([⟨"Plot 1", ""⟩], []) :=
  ⟨rfl, by decide⟩

/-- C10 (amended): for every document that parses as a non-empty (truthy)
object, load succeeds with missing fields defaulted: missing
`subplots`/`channels` sections become empty (yielding one synthesized
subplot and no lines), a missing `scale` defaults to 1, a missing
`subplot` index to 0, a missing `name` to the channel key with a missing
`unit` shown as empty, and missing `title`/`y_label` to `"Plot {i+1}"` /
`""`; the parseable empty document `{}` is falsy, so the loader returns
early and the prior layout is kept unchanged. -/
theorem config_defaults_amended :
    (∀ prior : List SubplotSpec × List PlotLine,
        setup_plots_app prior (some ⟨none, none⟩) true = ([⟨"Plot 1", ""⟩], []))
    ∧ (∀ (prior : List SubplotSpec × List PlotLine) (doc : ConfigDoc)
        (extra : Bool), doc.channels = none →
        dictNonempty doc extra = true →
        (setup_plots_app prior (some doc) extra).2 = [])
    ∧ (∀ prior : List SubplotSpec × List PlotLine,
        setup_plots_app prior (some ⟨none, none⟩) false = prior)
    ∧ (∀ ch : ChannelCfg, ch.scale = none → scaleOf ch = 1)
    ∧ (∀ (nsub idx : Nat) (key : String) (ch : ChannelCfg), 1 ≤ nsub →
        ch.subplot = none → (mkLine nsub idx key ch).subplot_idx = 0)
    ∧ (∀ (nsub idx : Nat) (key : String) (ch : ChannelCfg),
        ch.name = none → ch.unit = none →
        (mkLine nsub idx key ch).label = key ++ " []")
    ∧ (∀ (cfgs : List SubplotCfg) (i : Nat),
        (cfgs.getD i defaultSubplotCfg).title = none →
        (mkSubplot cfgs i).title = "Plot " ++ toString (i + 1))
    ∧ (∀ (cfgs : List SubplotCfg) (i : Nat),
        (cfgs.getD i defaultSubplotCfg).y_label = none →
        (mkSubplot cfgs i).y_label = "") := by
  refine ⟨?_, ?_, ?_, ?_, ?_, ?_, ?_, ?_⟩
  · intro prior
    show setup_plots ⟨none, none⟩ = _
    decide
  · intro prior doc extra hch htr
    show (if dictNonempty doc extra then setup_plots doc else prior).2 = []
    rw [htr]
    show (setup_plots doc).2 = []
    rw [setup_plots_snd, hch]
    rfl
  · intro prior
    rfl
  · intro ch h
    rw [scaleOf, h]
    rfl
  · intro nsub idx key ch hpos h
    show clampSubplot (ch.subplot.getD 0) nsub = 0
    rw [h]
    show clampSubplot 0 nsub = 0
    simp only [clampSubplot]
    norm_num
    omega
  · intro nsub idx key ch hn hu
    show ch.name.getD key ++ " [" ++ ch.unit.getD "" ++ "]" = key ++ " []"
    rw [hn, hu]
    show key ++ " [" ++ "" ++ "]" = key ++ " []"
    rw [String.append_empty, String.append_assoc]
    rfl
  · intro cfgs i h
    show ((cfgs.getD i defaultSubplotCfg).title).getD _ = _
    rw [h]
    rfl
  · intro cfgs i h
    show ((cfgs.getD i defaultSubplotCfg).y_label).getD "" = ""
    rw [h]
    rfl

/-- Concrete instantiation of `config_defaults_amended`: a truthy document
with both sections missing, a truthy document with an empty subplot array
and no channels, and an all-absent channel config. -/
theorem config_defaults_amended_witness :
    setup_plots_app ([], []) (some ⟨none, none⟩) true = ([⟨"Plot 1", ""⟩], [])
      ∧ (setup_plots_app ([], []) (some ⟨some [], none⟩) false).2 = []
      ∧ scaleOf dummyChannel = 1
      ∧ (mkLine 1 0 "ch0" dummyChannel).subplot_idx = 0
      ∧ (mkLine 1 0 "ch0" dummyChannel).label = "ch0" ++ " []"
      ∧ (mkSubplot [] 0).title = "Plot " ++ toString (0 + 1)
      ∧ (mkSubplot [] 0).y_label = "" :=
  ⟨config_defaults_amended.1 ([], []),
    config_defaults_amended.2.1 ([], []) ⟨some [], none⟩ false rfl rfl,
    config_defaults_amended.2.2.2.1 dummyChannel rfl,
    config_defaults_amended.2.2.2.2.1 1 0 "ch0" dummyChannel (by decide) rfl,
    config_defaults_amended.2.2.2.2.2.1 1 0 "ch0" dummyChannel rfl rfl,
    config_defaults_amended.2.2.2.2.2.2.1 [] 0 rfl,
    config_defaults_amended.2.2.2.2.2.2.2 [] 0 rfl⟩

end GuiInterface
